import Mathlib

/-!
Verification of the unison-experience-renderer service (src/src/main.py)
against its natural-language specification.

The development shallow-embeds the pieces of the service that the claims
touch: the bounded in-memory experience log and its broadcast queue, the
server-sent-events generator, the readiness endpoint over the capability
client, the speech transcription proxy, the wakeword lookup, the client
VAD (voice-activity-detection) loop and the client playback queue.
Machine-level concerns (HTTP transport, asyncio scheduling) are modelled
as explicit state passing; fallible upstream calls are modelled as oracle
functions returning an outcome datatype.
-/

/-! ## JSON values

Python dict/list/str/int values flowing through the service, with the
truthiness rules Python applies to them (`or` defaulting, `if x:` tests).
Floats are not needed by any claim and are omitted. -/

set_option maxRecDepth 8000

inductive Json where
  | null
  | bool (b : Bool)
  | num (n : Int)
  | str (s : String)
  | arr (xs : List Json)
  | obj (fields : List (String × Json))

/-- Python truthiness of a JSON value: `None`, `False`, `0`, `""` and empty
containers are falsy, everything else truthy. -/
def pyTruthy : Json → Bool
  | .null => false
  | .bool b => b
  | .num n => n != 0
  | .str s => s != ""
  | .arr xs => !xs.isEmpty
  | .obj fs => !fs.isEmpty

/-- `d.get(k)` on a Python dict modelled as an association list (first match;
Python dict keys are unique so the first match is the only one). -/
def assocGet (fs : List (String × Json)) (k : String) : Option Json :=
  match fs with
  | [] => none
  | (k₁, v) :: rest => if k₁ = k then some v else assocGet rest k

/-- `x or d` for an optional JSON value, as Python evaluates it: the value
when present and truthy, the default otherwise. -/
def pyOr (v : Option Json) (d : Json) : Json :=
  match v with
  | some x => if pyTruthy x then x else d
  | none => d

/-- `x or d` for an optional string (`person_id or default`): the string when
present and non-empty, the default otherwise. -/
def pyOrStr (v : Option String) (d : String) : String :=
  match v with
  | some s => if s = "" then d else s
  | none => d

/-- `body.get(k)` on a JSON value: field lookup on an object, nothing on any
other shape. -/
def jGet : Json → String → Option Json
  | .obj fs, k => assocGet fs k
  | _, _ => none

/-- Configured default person identifier (`UNISON_DEFAULT_PERSON_ID`
default). -/
def defaultPersonId : String := "local-user"

/-! ## Experience log and broadcast queue (main.py lines 33-35, 157-192,
667-699)

`_experience_log` is a Python list shared by three endpoints,
`_experience_queue` an unbounded asyncio queue.  Records are opaque here
(the claims never inspect them), so the state is polymorphic in the record
type; `log_experience` also stamps a timestamp and mirrors the log to the
context dashboard best-effort, neither of which the claims touch, so the
record is taken as already stamped and the mirror call is omitted. -/

/-- `_experience_log_max` (main.py line 34). -/
def expCap : Nat := 50

/-- The shared server state the three logging endpoints mutate: the
experience log (Python list, index 0 first) and the broadcast queue
(items in arrival order, `put_nowait` appends). -/
structure ServerLog (α : Type) where
  log : List α
  queue : List α
deriving DecidableEq, Repr

/-- `log_experience` (main.py lines 667-694): `_experience_log.insert(0,
payload)`, then `del _experience_log[_experience_log_max:]`, then
`_experience_queue.put_nowait(payload)` (an unbounded queue, so the
swallowed-failure branch is unreachable). -/
def log_experience {α : Type} (st : ServerLog α) (r : α) : ServerLog α :=
  { log := (r :: st.log).take expCap, queue := st.queue ++ [r] }

/-- The log mutation shared by both payment endpoints (main.py lines 167-169
and 189-191): `_experience_log.append(rec)`, then if `len(_experience_log) >
_experience_log_max: _experience_log.pop(0)`.  Note the convention clash
with `log_experience`: append puts the record at the tail and `pop(0)`
removes the front element, and nothing is put on the broadcast queue. -/
def paymentLogInsert {α : Type} (st : ServerLog α) (r : α) : ServerLog α :=
  let l := st.log ++ [r]
  { st with log := if expCap < l.length then l.tail else l }

/-- `record_payment_approval` (main.py lines 157-170), log effect only. -/
def record_payment_approval {α : Type} (st : ServerLog α) (r : α) : ServerLog α :=
  paymentLogInsert st r

/-- `get_payment_status` (main.py lines 173-192), log effect on a successful
upstream proxy call only (a failed call raises before reaching the log). -/
def get_payment_status {α : Type} (st : ServerLog α) (r : α) : ServerLog α :=
  paymentLogInsert st r

/-- One record-inserting operation of the HTTP surface. -/
inductive LogOp (α : Type) where
  | logExperience (r : α)
  | paymentApproval (r : α)
  | paymentStatus (r : α)
deriving DecidableEq, Repr

/-- Apply one inserting operation to the shared state. -/
def applyOp {α : Type} (st : ServerLog α) : LogOp α → ServerLog α
  | .logExperience r => log_experience st r
  | .paymentApproval r => record_payment_approval st r
  | .paymentStatus r => get_payment_status st r

/-- Run a sequence of inserting operations. -/
def runOps {α : Type} (st : ServerLog α) (ops : List (LogOp α)) : ServerLog α :=
  ops.foldl applyOp st

/-- The records a sequence of operations inserts, in insertion order. -/
def insertedRecords {α : Type} : List (LogOp α) → List α
  | [] => []
  | .logExperience r :: ops => r :: insertedRecords ops
  | .paymentApproval r :: ops => r :: insertedRecords ops
  | .paymentStatus r :: ops => r :: insertedRecords ops

/-- `list_experiences` (main.py lines 697-699): returns the log as is. -/
def list_experiences {α : Type} (st : ServerLog α) : List α :=
  st.log

/-- Taking `n` of a list whose tail part is already truncated at `n`. -/
theorem take_append_take {α : Type} (a b : List α) (n : Nat) :
    (a ++ b.take n).take n = (a ++ b).take n := by
  rw [List.take_append_eq_append_take, List.take_append_eq_append_take, List.take_take,
    Nat.min_eq_left (Nat.sub_le n a.length)]

/-- After any run of `log_experience` insertions from a state within the cap,
the log is the newest-first reversal of the inserted records (on top of the
old log), truncated at the cap. -/
theorem runOps_log_experiences {α : Type} (rs : List α) (st : ServerLog α)
    (h : st.log.length ≤ expCap) :
    (runOps st (rs.map LogOp.logExperience)).log = (rs.reverse ++ st.log).take expCap := by
  induction rs generalizing st with
  | nil =>
    simp [runOps, List.take_of_length_le h]
  | cons r rest ih =>
    have h₁ : ((r :: st.log).take expCap).length ≤ expCap := by
      simp [List.length_take]
    have h₂ := ih (log_experience st r) h₁
    simp only [runOps, List.map, List.foldl, applyOp] at h₂ ⊢
    rw [h₂]
    simp only [log_experience, List.reverse_cons]
    rw [take_append_take]
    simp [List.append_assoc]

/-- Claim C1, counterexample: a sequence of 51 `POST /payments/approvals`
insertions (records 0..50) exceeds the cap of 50, yet the subsequent
`GET /experiences` result is not the 50 most recently inserted records
newest first: the payment handlers append at the tail and `pop(0)` the
front, so the log comes back oldest first (and mixed sequences even lose
recent records while keeping older ones). -/
theorem payments_break_newest_first :
    (runOps (⟨[], []⟩ : ServerLog Nat) ((List.range 51).map LogOp.paymentApproval)).log
      ≠ (insertedRecords ((List.range 51).map LogOp.paymentApproval)).reverse.take expCap := by
  decide

/-- Claim C1 (amended): for every sequence of `POST /experiences` insertions
whose length exceeds the cap of 50, `GET /experiences` (`list()`) returns
exactly the 50 most recently inserted records, newest first (and, being a
pure read of the list, never raises). -/
theorem list_experiences_cap_newest_first (rs : List Nat) (h : expCap < rs.length) :
    list_experiences (runOps (⟨[], []⟩ : ServerLog Nat) (rs.map LogOp.logExperience))
        = rs.reverse.take expCap ∧
      (list_experiences (runOps (⟨[], []⟩ : ServerLog Nat) (rs.map LogOp.logExperience))).length
        = expCap := by
  have h₁ := runOps_log_experiences rs (⟨[], []⟩ : ServerLog Nat) (by simp)
  simp only [List.append_nil] at h₁
  refine ⟨by simpa [list_experiences] using h₁, ?_⟩
  simp [list_experiences, h₁, List.length_take]
  omega

/-- Claim C1 witness: the amended statement at the concrete sequence
0,..,50 of `POST /experiences` insertions. -/
theorem list_experiences_cap_newest_first_witness :
    expCap < (List.range 51).length ∧
      (list_experiences (runOps (⟨[], []⟩ : ServerLog Nat)
            ((List.range 51).map LogOp.logExperience))
          = (List.range 51).reverse.take expCap ∧
        (list_experiences (runOps (⟨[], []⟩ : ServerLog Nat)
            ((List.range 51).map LogOp.logExperience))).length = expCap) :=
  ⟨by decide, list_experiences_cap_newest_first (List.range 51) (by decide)⟩

/-- Claim C2, counterexample: the record created by a single
`POST /payments/approvals` on the empty state is pushed zero times, not
exactly once, onto the broadcast queue (the payment handlers never touch
`_experience_queue`), so the claim fails for payment-created records. -/
theorem payment_approval_not_broadcast :
    (applyOp (⟨[], []⟩ : ServerLog Nat) (LogOp.paymentApproval 7)).queue.count 7 = 0 ∧
      (applyOp (⟨[], []⟩ : ServerLog Nat) (LogOp.paymentApproval 7)).queue = [] := by
  constructor <;> rfl

/-- Claim C2 (amended): a record created by `POST /experiences` is inserted
at the head of the experience log, eviction on overflow discards exactly
the oldest records (the beyond-cap tail of the newest-first list), and the
record is pushed exactly once onto the broadcast queue; records created by
the payment endpoints are appended at the tail instead and are not pushed
onto the broadcast queue. -/
theorem experience_record_lifecycle (st : ServerLog Nat) (r : Nat) :
    (log_experience st r).log.head? = some r ∧
      r :: st.log = (log_experience st r).log ++ st.log.drop (expCap - 1) ∧
      (log_experience st r).queue.count r = st.queue.count r + 1 ∧
      (record_payment_approval st r).queue = st.queue ∧
      (get_payment_status st r).queue = st.queue ∧
      (record_payment_approval st r).log.getLast? = some r := by
  refine ⟨?_, ?_, ?_, rfl, rfl, ?_⟩
  · simp [log_experience, expCap, List.take_succ_cons]
  · simp only [log_experience, expCap, List.take_succ_cons]
    simp [List.take_append_drop]
  · simp [log_experience]
  · obtain ⟨l, q⟩ := st
    simp only [record_payment_approval, paymentLogInsert]
    cases l with
    | nil => simp [expCap]
    | cons x xs =>
      rw [List.cons_append]
      split
      · simp [List.getLast?_concat]
      · rw [← List.cons_append, List.getLast?_concat]

/-! ## Server-sent experience stream (main.py lines 702-711)

`stream_experiences` wraps a single always-open generator that blocks on
`_experience_queue.get()` and yields one event per item.  The generator is
embedded on the finite list of items the queue hands it, in queue order;
`Json.dumps` below follows `json.dumps` with its default separators
(", " and ": ") for the value shapes the service produces (non-ASCII
escaping and float formatting are not exercised by any claim). -/

/-- Minimal JSON string escaping as `json.dumps` applies it to the
characters exercised here (quote, backslash and the common control
characters). -/
def jsonEscape (s : String) : String :=
  s.data.foldl (fun acc c =>
    acc ++ (if c = '"' then "\\\"" else if c = '\\' then "\\\\"
      else if c = '\n' then "\\n" else if c = '\r' then "\\r"
      else if c = '\t' then "\\t" else String.singleton c)) ""

mutual

/-- `json.dumps` with Python default separators. -/
def Json.dumps : Json → String
  | .null => "null"
  | .bool b => if b then "true" else "false"
  | .num n => toString n
  | .str s => "\"" ++ jsonEscape s ++ "\""
  | .arr xs => "[" ++ String.intercalate ", " (dumpsList xs) ++ "]"
  | .obj fs => "\x7b" ++ String.intercalate ", " (dumpsFields fs) ++ "\x7d"

/-- Encodings of the elements of a JSON array. -/
def dumpsList : List Json → List String
  | [] => []
  | x :: xs => Json.dumps x :: dumpsList xs

/-- Encodings of the fields of a JSON object. -/
def dumpsFields : List (String × Json) → List String
  | [] => []
  | (k, v) :: fs => ("\"" ++ jsonEscape k ++ "\": " ++ Json.dumps v) :: dumpsFields fs

end

/-- `event_generator` inside `stream_experiences` (main.py lines 707-710):
one yielded string per record taken from the broadcast queue, in queue
order.  The Python source line is `yield f"data: {json.dumps(item)}\\n\\n"`
with doubled backslashes in the source text, so the yielded string ends
with the four characters backslash, n, backslash, n. -/
def event_generator : List Json → List String
  | [] => []
  | item :: rest => ("data: " ++ Json.dumps item ++ "\\n\\n") :: event_generator rest

/-- Claim C3 (code bug): the stream generator emits exactly one event per
record taken from the broadcast queue, in queue order, each beginning with
"data: " followed by the JSON encoding of the record — but the terminator
is the literal four-character sequence backslash, n, backslash, n, not two
newline characters, because the Python source doubles the backslashes in
the yield line.  Shown concretely on the queued record with one field
ts = 1: the last two characters of the emitted event are a backslash and
the letter n, which differ from two newlines. -/
theorem stream_event_literal_backslash :
    (∀ items : List Json,
        event_generator items
          = items.map (fun item => "data: " ++ Json.dumps item ++ "\\n\\n")) ∧
      event_generator [Json.obj [("ts", Json.num 1)]]
        = ["data: \x7b\"ts\": 1\x7d\\n\\n"] ∧
      ("data: \x7b\"ts\": 1\x7d\\n\\n").data.reverse.take 2 = ['n', '\\'] ∧
      (['n', '\\'] : List Char) ≠ ['\n', '\n'] := by
  refine ⟨?_, by decide, by decide, by decide⟩
  intro items
  induction items with
  | nil => rfl
  | cons x xs ih => simp [event_generator, ih]

/-! ## Capability client and readiness (main.py lines 31-32, 60-87, 110-113)

The `CapabilityClient` class itself lives in the external
`unison_common.multimodal` package, not in this repository, so its two
operations are modelled from the spec (section 4.1) and from the shape the
repository itself gives the manifest (the fallback literal in `ready` and
the tests): the manifest is a JSON object whose "modalities" field maps a
modality name to a list of device descriptors. -/

/-- Modelled from the spec: `CapabilityClient.modality_count(name)` (external
`unison_common.multimodal`) "returns the length of the named modality's
list, or 0 if the manifest is null or the modality absent — never fails". -/
def modality_count (manifest : Option Json) (name : String) : Nat :=
  match manifest with
  | none => 0
  | some m =>
    match jGet m "modalities" with
    | none => 0
    | some mods =>
      match jGet mods name with
      | some (Json.arr xs) => xs.length
      | _ => 0

/-- The capability client state the service holds: the cached manifest
(null until a successful load) and the last recorded error. -/
structure CapClient where
  manifest : Option Json
  last_error : Option String

/-- The synthetic fallback manifest `ready` installs (main.py line 68):
one display entry. -/
def fallbackManifest : Json :=
  Json.obj [("modalities", Json.obj [("displays",
    Json.arr [Json.obj [("id", Json.str "default"), ("name", Json.str "fallback")]])])]

/-- What `ready` returns (main.py lines 72-79). -/
structure ReadyResp where
  ready : Bool
  manifest_loaded : Bool
  displays : Nat
  last_error : Option String

/-- `ready` (main.py lines 60-79, also served as `/readyz`):
`manifest_loaded = bool(manifest)` (Python truthiness, so an empty dict
counts as not loaded), `displays = modality_count("displays")`,
`ready_flag = displays > 0 or not manifest_loaded`; when `displays == 0`
the synthetic fallback manifest is installed, the display count re-read
and the flag forced to true. -/
def ready (st : CapClient) : CapClient × ReadyResp :=
  let manifest_loaded :=
    match st.manifest with
    | none => false
    | some m => pyTruthy m
  let displays := modality_count st.manifest "displays"
  let ready_flag := decide (0 < displays) || !manifest_loaded
  if displays = 0 then
    let st₁ : CapClient := { st with manifest := some fallbackManifest }
    (st₁, { ready := true, manifest_loaded := manifest_loaded,
            displays := modality_count st₁.manifest "displays",
            last_error := st.last_error })
  else
    (st, { ready := ready_flag, manifest_loaded := manifest_loaded,
           displays := displays, last_error := st.last_error })

/-- `get_capabilities` (main.py lines 82-87): 503 when the manifest is
null (`is None`), the manifest and the display count otherwise. -/
def get_capabilities (st : CapClient) : Except Nat (Json × Nat) :=
  match st.manifest with
  | none => Except.error 503
  | some m => Except.ok (m, modality_count (some m) "displays")

/-- Modelled from the spec: `CapabilityClient.refresh()` (external
`unison_common.multimodal`) "fetches the manifest from a configured URL; on
any failure it preserves the previous manifest (if any) and records the
last error, returning the in-memory manifest (possibly null) without
raising".  The outcome of the fetch is passed in explicitly. -/
def refresh (st : CapClient) (fetched : Except String Json) : CapClient :=
  match fetched with
  | Except.ok m => { manifest := some m, last_error := none }
  | Except.error e => { st with last_error := some e }

/-- The operations that touch the capability client after a `/ready` call:
further `/ready` (or `/readyz`) calls and `/capabilities/refresh` calls
with an arbitrary fetch outcome (`GET /capabilities` reads the state
without changing it). -/
inductive CapOp where
  | opReady
  | opRefresh (fetched : Except String Json)

/-- Apply one capability-client operation. -/
def capStep (st : CapClient) : CapOp → CapClient
  | .opReady => (ready st).1
  | .opRefresh f => refresh st f

/-- Run a sequence of capability-client operations. -/
def capRun (st : CapClient) (ops : List CapOp) : CapClient :=
  ops.foldl capStep st

/-- Claim C4 (spec-modelled client): whenever the displays modality counts
zero entries — a never-loaded manifest included — `GET /ready` reports
ready, installs the synthetic single-entry displays manifest, and
`modality_count "displays"` on the resulting manifest is at least 1. -/
theorem ready_zero_displays_fallback (st : CapClient)
    (h : modality_count st.manifest "displays" = 0) :
    (ready st).2.ready = true ∧
      (ready st).1.manifest = some fallbackManifest ∧
      1 ≤ modality_count (ready st).1.manifest "displays" := by
  simp [ready, h]
  rfl

/-- Claim C4 witness: the fallback at the never-loaded state. -/
theorem ready_zero_displays_fallback_witness :
    modality_count (CapClient.mk none none).manifest "displays" = 0 ∧
      ((ready (CapClient.mk none none)).2.ready = true ∧
        (ready (CapClient.mk none none)).1.manifest = some fallbackManifest ∧
        1 ≤ modality_count (ready (CapClient.mk none none)).1.manifest "displays") :=
  ⟨rfl, ready_zero_displays_fallback (CapClient.mk none none) rfl⟩

/-- After a `/ready` call the cached manifest is never null. -/
theorem ready_manifest_isSome (st : CapClient) : ((ready st).1.manifest).isSome = true := by
  by_cases h : modality_count st.manifest "displays" = 0
  · simp [ready, h]
  · have h₁ : st.manifest.isSome = true := by
      cases hm : st.manifest with
      | none => exact absurd (by simp [modality_count, hm]) h
      | some m => rfl
    simp [ready, h] at h₁ ⊢
    exact h₁

/-- Every step of the capability client preserves a non-null manifest. -/
theorem capStep_manifest_isSome (st : CapClient) (op : CapOp)
    (h : st.manifest.isSome = true) : ((capStep st op).manifest).isSome = true := by
  cases op with
  | opReady => exact ready_manifest_isSome st
  | opRefresh f =>
    cases f with
    | ok m => rfl
    | error e => simpa [capStep, refresh] using h

/-- Claim C10 (spec-modelled client): `GET /ready` always reports
ready == true and leaves the manifest non-null, and every later
`GET /capabilities` — after any interleaving of further `/ready` and
`/capabilities/refresh` calls — never raises the 503
manifest-unavailable error. -/
theorem ready_then_capabilities_available (st : CapClient) (ops : List CapOp) :
    (ready st).2.ready = true ∧
      ((ready st).1.manifest).isSome = true ∧
      get_capabilities (capRun (ready st).1 ops) ≠ Except.error 503 := by
  have hready : (ready st).2.ready = true := by
    by_cases h : modality_count st.manifest "displays" = 0
    · simp [ready, h]
    · simp [ready, h, Nat.pos_of_ne_zero h]
  have hsome : ∀ ops₁ st₁, (CapClient.manifest st₁).isSome = true →
      ((capRun st₁ ops₁).manifest).isSome = true := by
    intro ops₁
    induction ops₁ with
    | nil => intro st₁ h₁; exact h₁
    | cons op rest ih =>
      intro st₁ h₁
      exact ih (capStep st₁ op) (capStep_manifest_isSome st₁ op h₁)
  refine ⟨hready, ready_manifest_isSome st, ?_⟩
  have h₂ := hsome ops (ready st).1 (ready_manifest_isSome st)
  cases hm : (capRun (ready st).1 ops).manifest with
  | none => rw [hm] at h₂; simp at h₂
  | some m => simp [get_capabilities, hm]

/-! ## Speech transcription proxy (main.py lines 116-137)

`proxy_speech_stt` validates the `audio` field, builds the upstream JSON
payload and headers, and performs one `httpx` POST; the outcome of that
call is passed in as an oracle.  The returned pair carries the handler
result (`Except` over the HTTP status raised) and the list of upstream
requests actually issued, so that "never reaches the upstream call" is a
statement about the embedding itself. -/

/-- The outcome of one upstream HTTP call: a transport failure (any
exception out of `httpx`) or a response with its status and parsed JSON
body. -/
inductive UpstreamOutcome where
  | transportError
  | response (status : Nat) (body : Json)

/-- One upstream request as the proxy issues it: the JSON payload and the
headers (`headers or None`, so no header dict at all when empty). -/
structure SttRequest where
  payload : List (String × Json)
  headers : Option (List (String × String))

/-- The upstream request `proxy_speech_stt` builds for a validated audio
string `s` (main.py lines 120-128): payload with the caller audio and the
`or`-defaulted person and session identifiers, plus the baton header —
forwarded only when `request.headers.get("X-Context-Baton")` is truthy,
so an empty header value is dropped. -/
def mkSttRequest (body : List (String × Json)) (baton : Option String) (s : String) :
    SttRequest :=
  { payload := [("audio", Json.str s),
      ("person_id", pyOr (assocGet body "person_id") (Json.str defaultPersonId)),
      ("session_id", pyOr (assocGet body "session_id") (Json.str "default-session"))],
    headers :=
      match baton with
      | some b => if b = "" then none else some [("X-Context-Baton", b)]
      | none => none }

/-- `proxy_speech_stt` (main.py lines 116-137): 400 when `audio` is not a
non-empty string, before any upstream call; otherwise one upstream POST,
whose transport failure or non-2xx status (`raise_for_status`) becomes a
502; 2xx passes the upstream body through. -/
def proxy_speech_stt (body : List (String × Json)) (baton : Option String)
    (upstream : SttRequest → UpstreamOutcome) : Except Nat Json × List SttRequest :=
  match assocGet body "audio" with
  | some (Json.str s) =>
    if s = "" then (Except.error 400, [])
    else
      let req := mkSttRequest body baton s
      match upstream req with
      | .transportError => (Except.error 502, [req])
      | .response status rbody =>
        if 200 ≤ status ∧ status < 300 then (Except.ok rbody, [req])
        else (Except.error 502, [req])
  | _ => (Except.error 400, [])

/-- Claim C5: `POST /speech/stt` fails with the 400 client error whenever
the `audio` field is not a non-empty string — absent, null, non-string and
empty all included — and then issues no upstream request at all; when the
audio is valid, an upstream transport failure or a non-2xx upstream status
fails with the 502 gateway error. -/
theorem speech_stt_error_handling (body : List (String × Json)) (baton : Option String)
    (upstream : SttRequest → UpstreamOutcome) :
    ((¬ ∃ s : String, s ≠ "" ∧ assocGet body "audio" = some (Json.str s)) →
        proxy_speech_stt body baton upstream = (Except.error 400, [])) ∧
      (∀ s : String, s ≠ "" → assocGet body "audio" = some (Json.str s) →
        (upstream (mkSttRequest body baton s) = UpstreamOutcome.transportError →
            (proxy_speech_stt body baton upstream).1 = Except.error 502) ∧
          (∀ status rbody,
            upstream (mkSttRequest body baton s) = UpstreamOutcome.response status rbody →
            status < 200 ∨ 300 ≤ status →
            (proxy_speech_stt body baton upstream).1 = Except.error 502)) := by
  refine ⟨?_, ?_⟩
  · intro hinv
    cases hA : assocGet body "audio" with
    | none => simp [proxy_speech_stt, hA]
    | some v =>
      cases v with
      | null => simp [proxy_speech_stt, hA]
      | bool b => simp [proxy_speech_stt, hA]
      | num n => simp [proxy_speech_stt, hA]
      | arr xs => simp [proxy_speech_stt, hA]
      | obj fs => simp [proxy_speech_stt, hA]
      | str s =>
        have hs : s = "" := by
          by_contra hs
          exact hinv ⟨s, hs, hA⟩
        subst hs
        simp [proxy_speech_stt, hA]
  · intro s hs hA
    refine ⟨?_, ?_⟩
    · intro hup
      simp [proxy_speech_stt, hA, hs, hup]
    · intro status rbody hup hrange
      have hr : ¬ (200 ≤ status ∧ status < 300) := by omega
      simp [proxy_speech_stt, hA, hs, hup, hr]

/-- A concrete valid request body for the proxy. -/
def sttBody₀ : List (String × Json) :=
  [("audio", Json.str "Zg=="), ("person_id", Json.str "p1"), ("session_id", Json.str "s1")]

/-- A concrete upstream that answers 200 with a transcript. -/
def upstreamOk₀ : SttRequest → UpstreamOutcome :=
  fun _ => UpstreamOutcome.response 200 (Json.obj [("transcript", Json.str "hi")])

/-- Claim C6, counterexample: a request whose `X-Context-Baton` header is
present with the empty value issues an upstream request with no headers at
all (`if baton:` is false for the empty string, and `headers or None`
collapses the empty dict), so the upstream request does not carry the
header value unchanged as the claim requires for every request carrying
the header. -/
theorem empty_baton_not_forwarded :
    (proxy_speech_stt [("audio", Json.str "Zg==")] (some "") upstreamOk₀).2
      = [{ payload := [("audio", Json.str "Zg=="),
             ("person_id", Json.str defaultPersonId),
             ("session_id", Json.str "default-session")],
           headers := none }] := rfl

/-- Claim C6 (amended): for every `POST /speech/stt` request with valid
audio whose `X-Context-Baton` header carries a non-empty value, the one
upstream request carries exactly that header value unchanged, and its JSON
payload holds the caller audio together with the person and session
identifiers, `or`-defaulted to the configured default person and to
"default-session" when absent or falsy; an empty header value is dropped
rather than forwarded. -/
theorem speech_stt_baton_forwarding (body : List (String × Json)) (b s : String)
    (upstream : SttRequest → UpstreamOutcome)
    (hb : b ≠ "") (hs : s ≠ "") (hA : assocGet body "audio" = some (Json.str s)) :
    (proxy_speech_stt body (some b) upstream).2 = [mkSttRequest body (some b) s] ∧
      (mkSttRequest body (some b) s).headers = some [("X-Context-Baton", b)] ∧
      (mkSttRequest body (some b) s).payload
        = [("audio", Json.str s),
           ("person_id", pyOr (assocGet body "person_id") (Json.str defaultPersonId)),
           ("session_id", pyOr (assocGet body "session_id") (Json.str "default-session"))] := by
  refine ⟨?_, by simp [mkSttRequest, hb], rfl⟩
  cases hup : upstream (mkSttRequest body (some b) s) with
  | transportError => simp [proxy_speech_stt, hA, hs, hup]
  | response status rbody =>
    by_cases hr : 200 ≤ status ∧ status < 300
    · simp [proxy_speech_stt, hA, hs, hup, hr]
    · simp [proxy_speech_stt, hA, hs, hup, hr]

/-- Claim C6 witness: the amended statement at a concrete request carrying
the baton value "baton-123". -/
theorem speech_stt_baton_forwarding_witness :
    ("baton-123" ≠ "" ∧ "Zg==" ≠ "" ∧
        assocGet sttBody₀ "audio" = some (Json.str "Zg==")) ∧
      ((proxy_speech_stt sttBody₀ (some "baton-123") upstreamOk₀).2
          = [mkSttRequest sttBody₀ (some "baton-123") "Zg=="] ∧
        (mkSttRequest sttBody₀ (some "baton-123") "Zg==").headers
          = some [("X-Context-Baton", "baton-123")] ∧
        (mkSttRequest sttBody₀ (some "baton-123") "Zg==").payload
          = [("audio", Json.str "Zg=="),
             ("person_id", pyOr (assocGet sttBody₀ "person_id") (Json.str defaultPersonId)),
             ("session_id", pyOr (assocGet sttBody₀ "session_id") (Json.str "default-session"))]) :=
  ⟨⟨by decide, by decide, rfl⟩,
    speech_stt_baton_forwarding sttBody₀ "baton-123" "Zg==" upstreamOk₀
      (by decide) (by decide) rfl⟩

/-! ## Wakeword lookup (main.py lines 41, 90-107)

`get_wakeword` asks the context service for the profile of the resolved
person and falls back to the configured default phrase on any failure;
the whole upstream interaction sits in one try/except whose handler does
nothing, so the endpoint is total.  Python `str.strip()` is modelled
charwise (both remove the surrounding ASCII whitespace the claims
exercise). -/

/-- Configured default wake phrase (`UNISON_WAKEWORD_DEFAULT` default). -/
def wakewordDefault : String := "unison"

/-- Python `str.strip()`: surrounding whitespace removed from both ends. -/
def pyStrip (s : String) : String :=
  String.mk (((s.data.dropWhile Char.isWhitespace).reverse.dropWhile Char.isWhitespace).reverse)

/-- What `get_wakeword` returns. -/
structure WakewordResp where
  wakeword : String
  person_id : String
deriving DecidableEq, Repr

/-- The `voice.wakeword` value of a profile response body (main.py lines
99-102): `body.get("profile") or {}`, then `.get("voice") or {}`, then
`.get("wakeword")`. -/
def profileWakeword (body : Json) : Option Json :=
  let body₁ := if pyTruthy body then body else Json.obj []
  let profile := pyOr (jGet body₁ "profile") (Json.obj [])
  let voice := pyOr (jGet profile "voice") (Json.obj [])
  jGet voice "wakeword"

/-- `get_wakeword` (main.py lines 90-107): resolve the person, default the
phrase, overwrite it with the stripped profile value only on a 200
response whose `voice.wakeword` is a string with non-blank content; any
transport failure or non-200 status leaves the default in place. -/
def get_wakeword (person_id : Option String) (up : UpstreamOutcome) : WakewordResp :=
  let pid := pyOrStr person_id defaultPersonId
  let wakeword :=
    match up with
    | .transportError => wakewordDefault
    | .response status body =>
      if status = 200 then
        match profileWakeword body with
        | some (Json.str ww) => if pyStrip ww = "" then wakewordDefault else pyStrip ww
        | _ => wakewordDefault
      else wakewordDefault
  { wakeword := wakeword, person_id := pid }

/-- Claim C7, counterexample: an upstream 200 profile whose `voice.wakeword`
is the non-empty string " hey unison " (padded with spaces) makes the
endpoint return "hey unison", the stripped phrase — not exactly the phrase
the profile contained, as the claim requires of every non-empty string. -/
theorem wakeword_strips_padded_phrase :
    (get_wakeword (some "p1")
        (UpstreamOutcome.response 200
          (Json.obj [("profile", Json.obj [("voice",
            Json.obj [("wakeword", Json.str " hey unison ")])])]))).wakeword
      = "hey unison" ∧
      (" hey unison " : String) ≠ "hey unison" := by
  refine ⟨rfl, by decide⟩

/-- Claim C7 (amended): `GET /wakeword` never raises (the embedding is a
total function by construction); when the upstream profile response is 200
and `voice.wakeword` holds a string that is non-empty after stripping
surrounding whitespace — "hey unison" included — the endpoint returns
exactly that stripped phrase; a whitespace-only value falls back to the
default; on a transport failure or any non-200 upstream status it returns
the configured default phrase. -/
theorem wakeword_lookup_fallback :
    (∀ pid body ww, profileWakeword body = some (Json.str ww) → pyStrip ww ≠ "" →
        (get_wakeword pid (UpstreamOutcome.response 200 body)).wakeword = pyStrip ww) ∧
      (∀ pid body ww, profileWakeword body = some (Json.str ww) → pyStrip ww = "" →
        (get_wakeword pid (UpstreamOutcome.response 200 body)).wakeword = wakewordDefault) ∧
      (∀ pid, (get_wakeword pid UpstreamOutcome.transportError).wakeword = wakewordDefault) ∧
      (∀ pid status body, status ≠ 200 →
        (get_wakeword pid (UpstreamOutcome.response status body)).wakeword
          = wakewordDefault) ∧
      (get_wakeword (some "p1")
          (UpstreamOutcome.response 200
            (Json.obj [("profile", Json.obj [("voice",
              Json.obj [("wakeword", Json.str "hey unison")])])]))).wakeword
        = "hey unison" := by
  refine ⟨?_, ?_, fun pid => rfl, ?_, rfl⟩
  · intro pid body ww hww htrim
    simp [get_wakeword, hww, htrim]
  · intro pid body ww hww htrim
    simp [get_wakeword, hww, htrim]
  · intro pid status body hstatus
    simp [get_wakeword, hstatus]

/-! ## Client VAD loop (main.py lines 296-305, 530-553)

The energy half of `analyseLoop` in the served browser script: per analysed
frame, a non-recording state starts recording when the frame RMS
(root-mean-square) exceeds the start threshold, and a recording state
accumulates `frameMs` of silence per frame below the stop threshold,
finalizing and submitting the recording (`stopRecording(true)`, the
Recording→Listening transition) once the accumulator reaches the
configured bound.  RMS values are rationals; the wake-word half of the
loop (lines 554-583) only ever starts a recording when none is active and
is not part of the claimed scenario, whose frames all sit below the stop
threshold once recording. -/

/-- `vadConfig.start` (main.py line 302): 0.02. -/
def vadStart : ℚ := 2 / 100

/-- `vadConfig.stop` (main.py line 302): 0.01. -/
def vadStop : ℚ := 1 / 100

/-- `vadConfig.frameMs` (main.py line 302): 80. -/
def vadFrameMs : Nat := 80

/-- `vadConfig.maxSilenceMs` (main.py line 302): 600. -/
def vadMaxSilenceMs : Nat := 600

/-- The loop state: whether a recorder is active (`mediaRecorder`) and the
accumulated consecutive silence (`silenceMs`). -/
structure VadState where
  recording : Bool
  silenceMs : Nat
deriving DecidableEq, Repr

/-- One analysed frame (main.py lines 540-553); the returned flag marks the
Recording→Listening transition (`stopRecording(true)`). -/
def analyseFrame (st : VadState) (rms : ℚ) : VadState × Bool :=
  if !st.recording && decide (vadStart < rms) then
    ({ recording := true, silenceMs := 0 }, false)
  else if st.recording then
    if rms < vadStop then
      let s := st.silenceMs + vadFrameMs
      if vadMaxSilenceMs ≤ s then ({ recording := false, silenceMs := s }, true)
      else ({ recording := true, silenceMs := s }, false)
    else ({ recording := true, silenceMs := 0 }, false)
  else (st, false)

/-- Run the analysis loop over a frame sequence, counting
Recording→Listening transitions. -/
def analyseRun (st : VadState) : List ℚ → VadState × Nat
  | [] => (st, 0)
  | rms :: rest =>
    let fr := analyseFrame st rms
    let tail := analyseRun fr.1 rest
    (tail.1, (if fr.2 then 1 else 0) + tail.2)

/-- Frames below the stop threshold never affect a non-recording state (the
stop threshold sits below the start threshold). -/
theorem analyseRun_listening (lows : List ℚ) (h : ∀ x ∈ lows, x < vadStop)
    (st : VadState) (hrec : st.recording = false) : analyseRun st lows = (st, 0) := by
  induction lows with
  | nil => rfl
  | cons x rest ih =>
    have hx : x < vadStop := h x (List.mem_cons_self x rest)
    have hlt : ¬ vadStart < x := by
      have : vadStop < vadStart := by norm_num [vadStop, vadStart]
      exact not_lt.mpr (le_of_lt (hx.trans this))
    have hrest : ∀ y ∈ rest, y < vadStop := fun y hy => h y (List.mem_cons_of_mem x hy)
    simp only [analyseRun, analyseFrame, hrec, hlt]
    simp [ih hrest]

/-- While recording with `j * frameMs` silence accumulated (`j < 8`), a run
of below-stop frames produces exactly one transition precisely when it is
long enough to push the accumulator to the bound, that is when it has at
least `8 - j` frames. -/
theorem analyseRun_recording (lows : List ℚ) (h : ∀ x ∈ lows, x < vadStop) :
    ∀ j : Nat, j < 8 →
      (analyseRun ⟨true, j * vadFrameMs⟩ lows).2 = if 8 - j ≤ lows.length then 1 else 0 := by
  induction lows with
  | nil =>
    intro j hj
    have h₀ : ¬ (8 - j = 0) := by omega
    simp [analyseRun, h₀]
  | cons x rest ih =>
    intro j hj
    have hx : x < vadStop := h x (List.mem_cons_self x rest)
    have hrest : ∀ y ∈ rest, y < vadStop := fun y hy => h y (List.mem_cons_of_mem x hy)
    have hlt : ¬ vadStart < x := by
      have : vadStop < vadStart := by norm_num [vadStop, vadStart]
      exact not_lt.mpr (le_of_lt (hx.trans this))
    by_cases hdone : j = 7
    · subst hdone
      have hbound : vadMaxSilenceMs ≤ 7 * vadFrameMs + vadFrameMs := by
        norm_num [vadMaxSilenceMs, vadFrameMs]
      have hfin := analyseRun_listening rest hrest ⟨false, 7 * vadFrameMs + vadFrameMs⟩ rfl
      simp only [analyseRun, analyseFrame, hlt, hx, hbound]
      simp [hfin]
    · have hj₁ : j + 1 < 8 := by omega
      have hbound : ¬ vadMaxSilenceMs ≤ j * vadFrameMs + vadFrameMs := by
        simp only [vadMaxSilenceMs, vadFrameMs]
        omega
      have harith : j * vadFrameMs + vadFrameMs = (j + 1) * vadFrameMs := by ring
      have hrec := ih hrest (j + 1) hj₁
      have hstep : analyseFrame ⟨true, j * vadFrameMs⟩ x
          = (⟨true, (j + 1) * vadFrameMs⟩, false) := by
        simp [analyseFrame, hlt, hx, hbound, harith]
        simp only [vadFrameMs, vadMaxSilenceMs]
        omega
      simp only [analyseRun, hstep]
      rw [hrec]
      simp only [List.length_cons, if_false, Nat.zero_add]
      have hiff : (8 - (j + 1) ≤ rest.length) ↔ (8 - j ≤ rest.length + 1) := by omega
      rw [if_congr hiff rfl rfl]
      simp

/-- Claim C8: the VAD thresholds satisfy start > stop > 0, and at the
frame cadence of the loop the configured silence bound of 600ms is reached
exactly when the 8th consecutive below-stop frame (8 being the least count
whose accumulated `frameMs` reaches the bound) is analysed: for every frame
sequence that rises above the start threshold and then stays below the stop
threshold, the Recording→Listening transition (finalize and submit) fires
exactly once as soon as the below-stop run covers the bound — runs shorter
than 8 frames fire no transition (never earlier), and longer runs still
fire exactly one (never later). -/
theorem vad_hysteresis_single_transition :
    vadStop < vadStart ∧ 0 < vadStop ∧
      vadMaxSilenceMs ≤ 8 * vadFrameMs ∧ 7 * vadFrameMs < vadMaxSilenceMs ∧
      ∀ (s₀ : Nat) (r : ℚ) (lows : List ℚ),
        vadStart < r → (∀ x ∈ lows, x < vadStop) →
        (analyseRun ⟨false, s₀⟩ (r :: lows)).2 = if 8 ≤ lows.length then 1 else 0 := by
  refine ⟨by norm_num [vadStop, vadStart], by norm_num [vadStop],
    by norm_num [vadFrameMs, vadMaxSilenceMs], by norm_num [vadFrameMs, vadMaxSilenceMs], ?_⟩
  intro s₀ r lows hr hlows
  have hstep : analyseFrame ⟨false, s₀⟩ r = (⟨true, 0⟩, false) := by
    simp [analyseFrame, hr]
  have hmain := analyseRun_recording lows hlows 0 (by omega)
  simp only [Nat.zero_mul] at hmain
  simp only [analyseRun, hstep]
  rw [hmain]
  simp

/-! ## Client playback queue (main.py lines 315-342, 343-371)

The audio part of `applyExperience` in the served browser script, together
with the DOM behaviour it relies on: assigning a media element src aborts
any current playback and clears the ended flag, `play()` starts playback,
and the `ended` event fires only when a playing clip completes.  The
`played` field records every `play()` start, in order, so "plays exactly
once, in order" is a statement about that trace. -/

/-- The audio element: its src (empty string when unset), whether a clip is
playing, the ended flag, and whether the queue-advancing `onended` handler
has been attached. -/
structure AudioEl where
  src : String
  playing : Bool
  ended : Bool
  onendedChained : Bool
deriving DecidableEq, Repr

/-- The client playback state: the element, `playQueue`, and the trace of
started plays. -/
structure PlaybackState where
  el : AudioEl
  playQueue : List String
  played : List String
deriving DecidableEq, Repr

/-- Assigning a media element src: the media load algorithm aborts the
current playback and resets the ended flag. -/
def setSrc (el : AudioEl) (u : String) : AudioEl :=
  { el with src := u, playing := false, ended := false }

/-- `safeMediaUrl` (main.py lines 315-336) as the claims exercise it: the
URL itself when absolute with the http or https protocol, the empty string
otherwise (the full embed allowlist is never reached for plain audio
references). -/
def safeMediaUrl (u : String) : String :=
  if ("http://".data.isPrefixOf u.data) || ("https://".data.isPrefixOf u.data) then u else ""

/-- `setMediaSrc` (main.py lines 337-342): `el.src = safeMediaUrl(url) or ""`. -/
def setMediaSrc (el : AudioEl) (url : Option String) : AudioEl :=
  setSrc el (match url with | some u => safeMediaUrl u | none => "")

/-- The audio handling of `applyExperience` (main.py lines 350-366): first
`setMediaSrc("audio-slot", latest.audio_url)` runs unconditionally, then —
when `latest.audio_url` is truthy — the raw URL is pushed onto `playQueue`
and, only if the element src is empty or the element has ended, the queue
head is shifted out, assigned and played, attaching the `onended` chain. -/
def applyExperienceAudio (st : PlaybackState) (audio_url : Option String) : PlaybackState :=
  let el := setMediaSrc st.el audio_url
  match audio_url with
  | some u =>
    if u = "" then { st with el := el }
    else
      let q := st.playQueue ++ [u]
      if el.src = "" || el.ended then
        let next := q.headD ""
        { el := { setSrc el next with playing := true, onendedChained := true },
          playQueue := q.tail,
          played := st.played ++ [next] }
      else { st with el := el, playQueue := q }
  | none => { st with el := el }

/-- The `ended` DOM event (fires only while playing): the attached handler
(main.py lines 359-364) shifts the next queued URL, assigns and plays it. -/
def clipEnded (st : PlaybackState) : PlaybackState :=
  if st.el.playing then
    let el := { st.el with playing := false, ended := true }
    if el.onendedChained then
      match st.playQueue with
      | next :: rest =>
        { el := { setSrc el next with playing := true, onendedChained := true },
          playQueue := rest,
          played := st.played ++ [next] }
      | [] => { st with el := el }
    else { st with el := el }
  else st

/-- The events that can reach the playback state. -/
inductive PlayEvent where
  | experience (audio_url : Option String)
  | ended
deriving DecidableEq, Repr

/-- Apply one playback event. -/
def playStep (st : PlaybackState) : PlayEvent → PlaybackState
  | .experience url => applyExperienceAudio st url
  | .ended => clipEnded st

/-- Run a sequence of playback events. -/
def playRun (st : PlaybackState) (evs : List PlayEvent) : PlaybackState :=
  evs.foldl playStep st

/-- Events whose experience URLs (when present) pass the sanitizer: the
ordinary stream of experiences bearing well-formed audio references, plus
any `ended` events. -/
def validEvents (evs : List PlayEvent) : Bool :=
  evs.all fun ev =>
    match ev with
    | .experience (some u) => !(safeMediaUrl u == "")
    | .experience none => true
    | .ended => true

/-- A stopped element never starts any playback again under valid events:
`applyExperience` always reassigns the src first, so the play branch tests
the freshly assigned element (non-empty src, ended cleared) and stays
false, and `ended` events need a playing clip to fire. -/
theorem playRun_stalled (evs : List PlayEvent) (h : validEvents evs = true) :
    ∀ st : PlaybackState, st.el.playing = false →
      (playRun st evs).played = st.played ∧ (playRun st evs).el.playing = false := by
  induction evs with
  | nil => intro st h₁; exact ⟨rfl, h₁⟩
  | cons ev rest ih =>
    intro st h₁
    have hrest : validEvents rest = true := by
      simp only [validEvents, List.all_cons, Bool.and_eq_true] at h
      exact h.2
    have hstall : (playStep st ev).played = st.played ∧ (playStep st ev).el.playing = false := by
      cases ev with
      | ended => simp [playStep, clipEnded, h₁]
      | experience url =>
        cases url with
        | none => simp [playStep, applyExperienceAudio, setMediaSrc, setSrc]
        | some u =>
          have hu : safeMediaUrl u ≠ "" := by
            simp only [validEvents, List.all_cons, Bool.and_eq_true] at h
            simpa using h.1
          have hu₀ : u ≠ "" := by
            intro hc
            exact hu (by simp [hc, safeMediaUrl])
          simp [playStep, applyExperienceAudio, setMediaSrc, setSrc, hu₀, hu]
    have hnext := ih hrest (playStep st ev) hstall.2
    simp only [playRun, List.foldl] at hnext ⊢
    exact ⟨hnext.1.trans hstall.1, hnext.2⟩

/-- Claim C9 (code bug): with a clip playing and the queue-advancing
handler attached, three experiences bearing playable audio references
arrive; `applyExperience` reassigns the element src unconditionally before
the queue check, which aborts the playing clip, and the play branch
(empty src or ended) is then false, so all three references only pile up
in `playQueue`: nothing is playing afterwards, the play trace never grows
under any further valid experiences or `ended` events, and — shown in the
last conjunct — even a first clip arriving at the pristine state is queued
without ever being played. -/
theorem playback_queue_never_advances :
    playRun ⟨⟨"http://a.mp3", true, false, true⟩, [], ["http://a.mp3"]⟩
        [PlayEvent.experience (some "http://b.mp3"),
         PlayEvent.experience (some "http://c.mp3"),
         PlayEvent.experience (some "http://d.mp3")]
      = ⟨⟨"http://d.mp3", false, false, true⟩,
         ["http://b.mp3", "http://c.mp3", "http://d.mp3"], ["http://a.mp3"]⟩ ∧
      (∀ evs : List PlayEvent, validEvents evs = true →
        (playRun ⟨⟨"http://d.mp3", false, false, true⟩,
            ["http://b.mp3", "http://c.mp3", "http://d.mp3"], ["http://a.mp3"]⟩ evs).played
          = ["http://a.mp3"]) ∧
      (applyExperienceAudio ⟨⟨"", false, false, false⟩, [], []⟩
          (some "http://a.mp3")).played = [] := by
  refine ⟨by decide, ?_, by decide⟩
  intro evs hevs
  exact (playRun_stalled evs hevs _ rfl).1
